import Mathlib

/-!
Verification of the RedditPerspectiveAPI repository (two Python modules:
`discord_logging.py` and `script.py`) against its natural-language
specification.

The embedding models:
* `DiscordWebhookHandler` (the spec's NotificationSink): a batching,
  rate-limited log delivery sink with a pending queue and a minimum
  interval gate, from `discord_logging.py`;
* `post_webhook`: the retrying HTTP delivery with truncation to 2000
  characters and a sleep/retry loop bounded by a timeout;
* the supervisor loop of `script.py` (`main`), which consumes a comment
  stream, backs off on server errors, and re-raises other exceptions;
* the escalation logic of `process_comment`, which issues one moderator
  report per attribute whose score meets its threshold.

Times and scores are rationals; strings are lists of characters, so that
Python's slice truncation `content[:2000]` becomes `List.take 2000`.
-/

namespace RedditPerspective

/-- A log record as consumed by the handler: severity level and rendered
message text.  (`logging.LogRecord` carries more fields; only these are
observable through the sink.) -/
structure LogRecord where
  level : ℕ
  msg : List Char
  deriving DecidableEq, Repr

/-- The backtick character used by `emit` to fence the posted content. -/
def btick : Char := Char.ofNat 96

/-- Mutable state of `DiscordWebhookHandler`: the minimum emit interval,
the time of the last delivery attempt (`self.last_emit`, initially 0), and
the pending queue.  The queue element type is `Option LogRecord` because
`emit` appends its `record` argument verbatim on failure, and that argument
may be the flush sentinel `None`. -/
structure SinkState where
  interval : ℚ
  last_emit : ℚ
  queue : List (Option LogRecord)
  deriving DecidableEq, Repr

/-- One HTTP response from the webhook endpoint: its success flag
(`response.ok`) and the optional `x-ratelimit-reset-after` header. -/
structure WebResponse where
  ok : Bool
  retryAfter : Option ℚ
  deriving DecidableEq, Repr

/-- The sleep duration the retry loop extracts from a response:
`response.headers.get("x-ratelimit-reset-after", 2)`. -/
def retryDelay (r : WebResponse) : ℚ :=
  r.retryAfter.getD 2

/-- Outcome of one `post_webhook` call: the returned boolean (`none` when
the scripted response sequence is exhausted before the loop decides, a
modelling artifact only), the contents actually posted over the network in
order, and the sleeps performed. -/
structure PostOutcome where
  result : Option Bool
  sends : List (List Char)
  sleeps : List ℚ
  deriving DecidableEq, Repr

/-- The `while not response.ok` loop of `post_webhook`.  `r` is the
response to the most recent post, `rest` scripts the responses to further
posts, `elapsed` is `monotonic() - start_time` (time advances only by
sleeping).  Each further post sends `content[:2000]`. -/
def post_loop (content : List Char) (timeout : ℚ) :
    WebResponse → List WebResponse → ℚ → PostOutcome
  | r, [], elapsed =>
    if r.ok then ⟨some true, [], []⟩
    else if elapsed + retryDelay r > timeout then ⟨some false, [], []⟩
    else ⟨none, [], []⟩
  | r, r2 :: rest2, elapsed =>
    if r.ok then ⟨some true, [], []⟩
    else if elapsed + retryDelay r > timeout then ⟨some false, [], []⟩
    else
      let out := post_loop content timeout r2 rest2 (elapsed + retryDelay r)
      ⟨out.result, content.take 2000 :: out.sends, retryDelay r :: out.sleeps⟩

/-- Model of `DiscordWebhookHandler.post_webhook(content, timeout)`: post
`content[:2000]`, then retry on non-ok responses, sleeping the advertised
delay, aborting with failure when the sleep would push elapsed time past
the timeout.  `responses` scripts the endpoint's replies to successive
posts. -/
def post_webhook (responses : List WebResponse) (content : List Char)
    (timeout : ℚ) : PostOutcome :=
  match responses with
  | [] => ⟨none, [], []⟩
  | r :: rest =>
    let out := post_loop content timeout r rest 0
    ⟨out.result, content.take 2000 :: out.sends, out.sleeps⟩

/-- The combined text block `emit` builds:
`f"(triple backtick){queue_content}\n{record_content}(triple backtick)"`
where `queue_content` joins the formatted queue with newlines and
`record_content` is the formatted new record, or empty for the sentinel. -/
def render (format : Option LogRecord → List Char)
    (queue : List (Option LogRecord)) (record : Option LogRecord) :
    List Char :=
  let queue_content := List.intercalate ['\n'] (queue.map format)
  let record_content := match record with
    | some r => format (some r)
    | none => []
  [btick, btick, btick] ++ queue_content ++ ['\n'] ++ record_content
    ++ [btick, btick, btick]

/-- Model of `DiscordWebhookHandler.emit(record)`.  If the record is not the
sentinel and the minimum-interval gate blocks (`last_emit + interval >
now`), append to the queue and return with no network traffic.  Otherwise
render the queue plus the record, deliver once through `deliver`
(abstracting `post_webhook`'s boolean result), stamp `last_emit := now`,
and clear the queue on success or append the record on failure.  The
second component lists the contents handed to the delivery. -/
def emit (format : Option LogRecord → List Char)
    (deliver : List Char → Bool) (now : ℚ) (record : Option LogRecord)
    (s : SinkState) : SinkState × List (List Char) :=
  if record.isSome ∧ s.last_emit + s.interval > now then
    ({ s with queue := s.queue ++ [record] }, [])
  else
    let content := render format s.queue record
    let success := deliver content
    ({ s with
        last_emit := now,
        queue := if success then [] else s.queue ++ [record] },
      [content])

/-- Model of `DiscordWebhookHandler.flush()`: emit the sentinel only when
the queue is non-empty. -/
def flush (format : Option LogRecord → List Char)
    (deliver : List Char → Bool) (now : ℚ) (s : SinkState) :
    SinkState × List (List Char) :=
  if s.queue.isEmpty then (s, []) else emit format deliver now none s

/-- A sequence of `emit` calls with non-sentinel records, each tagged with
its `monotonic()` reading, accumulating all network sends. -/
def emitAll (format : Option LogRecord → List Char)
    (deliver : List Char → Bool) :
    List (ℚ × LogRecord) → SinkState → SinkState × List (List Char)
  | [], s => (s, [])
  | (now, r) :: rest, s =>
    let step := emit format deliver now (some r) s
    let tail := emitAll format deliver rest step.1
    (tail.1, step.2 ++ tail.2)

/-- Python's `random.randint(lo, hi)` draws an integer from the inclusive
range `[lo, hi]`; the oracle value `r` selects which one. -/
def randint (lo hi r : ℕ) : ℕ :=
  lo + r % (hi - lo + 1)

/-- One iteration's outcome of the supervisor's `async for` body, as seen
by the `try` block of `main`: either a comment arrives and its processing
(classifier call, escalation, report) succeeds or raises, or the feed
transport itself raises `ServerError`, or some other exception surfaces. -/
inductive StepEvent where
  | comment (classifierFails : Bool)
  | feedServerError
  | feedOtherError
  deriving DecidableEq, Repr

/-- Observable actions of the supervisor loop: a fully processed comment,
a warning-level log followed by a backoff sleep of `d` seconds, or an
error-level log of the exception that is then re-raised. -/
inductive Action where
  | processed
  | warnBackoff (d : ℕ)
  | fatalLog
  deriving DecidableEq, Repr

/-- The `while True` loop of `main` in `script.py`.  A comment whose
processing succeeds is consumed and the loop continues.  Any exception
that is not `ServerError` (in particular a classifier failure inside
`process_comment`) reaches `except Exception`, is logged at error level,
and is re-raised, ending the loop (second component `true` means the loop
terminated by propagating an exception).  `ServerError` is logged at
warning level, the loop sleeps `randint(25, 35)` seconds and re-subscribes.
`rand` is the oracle feeding each `randint` call, indexed by `k`. -/
def runSupervisor (rand : ℕ → ℕ) :
    List StepEvent → ℕ → List Action × Bool
  | [], _ => ([], false)
  | StepEvent.comment false :: rest, k =>
    let tail := runSupervisor rand rest k
    (Action.processed :: tail.1, tail.2)
  | StepEvent.comment true :: _, _ => ([Action.fatalLog], true)
  | StepEvent.feedServerError :: rest, k =>
    let tail := runSupervisor rand rest (k + 1)
    (Action.warnBackoff (randint 25 35 (rand k)) :: tail.1, tail.2)
  | StepEvent.feedOtherError :: _, _ => ([Action.fatalLog], true)

/-- Result of `process_comment`'s escalation pass over one comment:
whether the summary is logged at info level (some attribute triggered) and
the report calls made, each carrying attribute name, score and
threshold. -/
structure EscalationResult where
  infoLevel : Bool
  reports : List (List Char × ℚ × ℚ)
  deriving DecidableEq, Repr

/-- The `for attribute, score in results.items()` loop of
`process_comment`: an attribute whose score is `>=` its threshold switches
the log level to info and issues one `comment.report` call with the
attribute, score and threshold; attributes below threshold only contribute
to the summary text. -/
def escalate (threshold : List Char → ℚ) :
    List (List Char × ℚ) → EscalationResult
  | [] => ⟨false, []⟩
  | (attr, score) :: rest =>
    let tail := escalate threshold rest
    if score ≥ threshold attr then
      ⟨true, (attr, score, threshold attr) :: tail.reports⟩
    else
      ⟨tail.infoLevel, tail.reports⟩

/-! ## Helper lemmas -/

theorem post_loop_sends_eq (content : List Char) (timeout : ℚ)
    (rest : List WebResponse) :
    ∀ (r : WebResponse) (elapsed : ℚ) (x : List Char),
      x ∈ (post_loop content timeout r rest elapsed).sends →
      x = content.take 2000 := by
  induction rest with
  | nil =>
    intro r elapsed x hx
    simp only [post_loop] at hx
    split at hx
    · simp at hx
    · split at hx <;> simp at hx
  | cons r2 rest2 ih =>
    intro r elapsed x hx
    simp only [post_loop] at hx
    split at hx
    · simp at hx
    · split at hx
      · simp at hx
      · simp only [List.mem_cons] at hx
        rcases hx with rfl | hx
        · rfl
        · exact ih r2 (elapsed + retryDelay r) x hx

/-! ## Claims -/

/-- C5: with a rate-limited first response advertising a 3-second delay
and a 5-second timeout, `post_webhook` sleeps 3 seconds and performs
exactly one retry (two posts in total) before succeeding; with a
10-second delay and the same timeout it reports failure after the single
initial post, performing no sleep at all. -/
theorem post_webhook_retry_budget :
    post_webhook [⟨false, some 3⟩, ⟨true, none⟩] ['h', 'i'] 5 =
      ⟨some true, [['h', 'i'], ['h', 'i']], [3]⟩ ∧
    post_webhook [⟨false, some 10⟩, ⟨true, none⟩] ['h', 'i'] 5 =
      ⟨some false, [['h', 'i']], []⟩ := by
  constructor <;> norm_num [post_webhook, post_loop, retryDelay]

/-- C6: every content string `post_webhook` actually posts is the
2000-character truncation of its argument; in particular no post exceeds
2000 characters, and when the combined text is at least 2000 characters
long the posted text is exactly 2000 characters. -/
theorem post_webhook_truncates (responses : List WebResponse)
    (content : List Char) (timeout : ℚ) (x : List Char)
    (hx : x ∈ (post_webhook responses content timeout).sends) :
    x = content.take 2000 ∧ x.length ≤ 2000 ∧
      (2000 ≤ content.length → x.length = 2000) := by
  have hxeq : x = content.take 2000 := by
    cases responses with
    | nil => simp [post_webhook] at hx
    | cons r rest =>
      simp only [post_webhook, List.mem_cons] at hx
      rcases hx with rfl | hx
      · rfl
      · exact post_loop_sends_eq content timeout rest r 0 x hx
  subst hxeq
  refine ⟨rfl, ?_, ?_⟩
  · rw [List.length_take]
    omega
  · intro h
    rw [List.length_take]
    omega

/-- Witness for C6 at a concrete run: one successful post of a short
content. -/
theorem post_webhook_truncates_w :
    ['a'] = (['a'] : List Char).take 2000 ∧
      (['a'] : List Char).length ≤ 2000 ∧
      (2000 ≤ (['a'] : List Char).length →
        (['a'] : List Char).length = 2000) :=
  post_webhook_truncates [⟨true, none⟩] ['a'] 5 ['a']
    (by norm_num [post_webhook, post_loop])

/-- C9: `flush` on an empty queue is a no-op: the sink state is returned
unchanged and no content is handed to the delivery. -/
theorem flush_empty_noop (format : Option LogRecord → List Char)
    (deliver : List Char → Bool) (now : ℚ) (s : SinkState)
    (h : s.queue = []) : flush format deliver now s = (s, []) := by
  simp [flush, h]

/-- Witness for C9 at a concrete empty-queue sink. -/
theorem flush_empty_noop_w :
    flush (fun _ => []) (fun _ => true) 0 ⟨1, 0, []⟩ = (⟨1, 0, []⟩, []) :=
  flush_empty_noop (fun _ => []) (fun _ => true) 0 ⟨1, 0, []⟩ rfl

/-- C1 counterexample: with one record already queued, a gate-satisfied
emission of a second record whose delivery fails leaves BOTH records in
the queue; the previously queued record is not dropped, so the queue is
not just the newest record, contrary to the claim. -/
theorem emit_failure_keeps_queue_cex :
    ((emit (fun _ => []) (fun _ => false) 1 (some ⟨0, ['b']⟩)
        ⟨0, 0, [some ⟨0, ['a']⟩]⟩).1.queue =
      [some ⟨0, ['a']⟩, some ⟨0, ['b']⟩]) ∧
    ((emit (fun _ => []) (fun _ => false) 1 (some ⟨0, ['b']⟩)
        ⟨0, 0, [some ⟨0, ['a']⟩]⟩).1.queue ≠ [some ⟨0, ['b']⟩]) := by
  constructor <;> norm_num [emit]

/-- C1 amended: on a failed delivery the triggering record is appended to
the pending queue and every previously queued record remains in the
queue's stored form, in order; nothing is dropped (the queue is cleared
only on a successful delivery). -/
theorem emit_failure_appends_keeps_queue
    (format : Option LogRecord → List Char) (deliver : List Char → Bool)
    (now : ℚ) (record : Option LogRecord) (s : SinkState)
    (hgate : ¬(record.isSome ∧ s.last_emit + s.interval > now))
    (hfail : deliver (render format s.queue record) = false) :
    (emit format deliver now record s).1.queue = s.queue ++ [record] := by
  simp [emit, hgate, hfail]

/-- Witness for C1's amended theorem at a concrete failing delivery. -/
theorem emit_failure_appends_keeps_queue_w :
    (emit (fun _ => []) (fun _ => false) 1 (some ⟨0, ['b']⟩)
        ⟨0, 0, [some ⟨0, ['a']⟩]⟩).1.queue =
      [some ⟨0, ['a']⟩] ++ [some ⟨0, ['b']⟩] :=
  emit_failure_appends_keeps_queue (fun _ => []) (fun _ => false) 1
    (some ⟨0, ['b']⟩) ⟨0, 0, [some ⟨0, ['a']⟩]⟩
    (by norm_num) rfl

/-- C4: a gate-satisfied emission stamps `last_emit` with the attempt
start time `now` whatever the delivery outcome, and when the delivery
fails the record that triggered the emission is present in the pending
queue afterwards. -/
theorem emit_attempt_stamps_and_requeues
    (format : Option LogRecord → List Char) (deliver : List Char → Bool)
    (now : ℚ) (record : Option LogRecord) (s : SinkState)
    (hgate : s.last_emit + s.interval ≤ now) :
    (emit format deliver now record s).1.last_emit = now ∧
      (deliver (render format s.queue record) = false →
        record ∈ (emit format deliver now record s).1.queue) := by
  have hc : ¬(record.isSome ∧ s.last_emit + s.interval > now) := by
    rintro ⟨-, hlt⟩
    exact absurd hgate (not_le.mpr hlt)
  constructor
  · simp [emit, hc]
  · intro hfail
    simp [emit, hc, hfail]

/-- Witness for C4 at a concrete failing delivery. -/
theorem emit_attempt_stamps_and_requeues_w :
    (emit (fun _ => []) (fun _ => false) 1 (some ⟨0, []⟩)
        ⟨1, 0, []⟩).1.last_emit = 1 ∧
      ((fun _ => false) (render (fun _ => []) [] (some ⟨0, []⟩)) = false →
        some ⟨0, []⟩ ∈ (emit (fun _ => []) (fun _ => false) 1
          (some ⟨0, []⟩) ⟨1, 0, []⟩).1.queue) :=
  emit_attempt_stamps_and_requeues (fun _ => []) (fun _ => false) 1
    (some ⟨0, []⟩) ⟨1, 0, []⟩ (by norm_num)

/-- C7: a run of emissions of non-sentinel records that all arrive while
the minimum-interval gate blocks produces no network traffic, leaves
`last_emit` and every other field unchanged, and appends the records to
the pending queue in arrival order. -/
theorem gated_emits_queue_in_order
    (format : Option LogRecord → List Char) (deliver : List Char → Bool)
    (steps : List (ℚ × LogRecord)) (s : SinkState)
    (h : ∀ p ∈ steps, s.last_emit + s.interval > p.1) :
    emitAll format deliver steps s =
      ({ s with queue := s.queue ++ steps.map (fun p => some p.2) }, []) := by
  induction steps generalizing s with
  | nil => simp [emitAll]
  | cons p rest ih =>
    obtain ⟨now, r⟩ := p
    have hgate : (some r).isSome ∧ s.last_emit + s.interval > now :=
      ⟨rfl, h (now, r) (List.mem_cons_self _ _)⟩
    have hrest : ∀ q ∈ rest,
        ({ s with queue := s.queue ++ [some r] } : SinkState).last_emit +
          ({ s with queue := s.queue ++ [some r] } : SinkState).interval >
          q.1 :=
      fun q hq => h q (List.mem_cons_of_mem _ hq)
    simp only [emitAll, emit, if_pos hgate, ih _ hrest]
    simp

/-- Witness for C7: two gated emissions against an interval-1 sink. -/
theorem gated_emits_queue_in_order_w :
    emitAll (fun _ => []) (fun _ => true)
        [((0 : ℚ), ⟨0, []⟩), ((1 / 2 : ℚ), ⟨1, []⟩)] ⟨1, 0, []⟩ =
      ({ SinkState.mk 1 0 [] with
          queue := [] ++
            [((0 : ℚ), LogRecord.mk 0 []),
              ((1 / 2 : ℚ), LogRecord.mk 1 [])].map (fun p => some p.2) },
        []) :=
  gated_emits_queue_in_order (fun _ => []) (fun _ => true)
    [((0 : ℚ), ⟨0, []⟩), ((1 / 2 : ℚ), ⟨1, []⟩)] ⟨1, 0, []⟩
    (by
      intro p hp
      simp only [List.mem_cons, List.not_mem_nil, or_false] at hp
      rcases hp with rfl | rfl <;> norm_num)

/-- C10: flushing a non-empty queue whose delivery fails appends the
sentinel `none` itself to the pending queue, so the queue no longer
contains only log records, and the formatter is applied to `none` when
the queue is next rendered (the rendered queue image contains
`format none`). -/
theorem flush_failure_enqueues_sentinel
    (format : Option LogRecord → List Char) (deliver : List Char → Bool)
    (now : ℚ) (s : SinkState) (hne : s.queue ≠ [])
    (hfail : deliver (render format s.queue none) = false) :
    (flush format deliver now s).1.queue = s.queue ++ [none] ∧
      none ∈ (flush format deliver now s).1.queue ∧
      format none ∈ ((flush format deliver now s).1.queue.map format) ∧
      ¬(∀ x ∈ (flush format deliver now s).1.queue, x.isSome) := by
  have hq : (flush format deliver now s).1.queue = s.queue ++ [none] := by
    have hemp : s.queue.isEmpty = false := by
      cases hq : s.queue with
      | nil => exact absurd hq hne
      | cons a l => simp
    simp [flush, hemp, emit, hfail]
  refine ⟨hq, ?_, ?_, ?_⟩
  · rw [hq]
    simp
  · rw [hq]
    exact List.mem_map_of_mem format (by simp)
  · rw [hq]
    intro hall
    have := hall none (by simp)
    simp at this

/-- Witness for C10 at a concrete one-record queue and failing
delivery. -/
theorem flush_failure_enqueues_sentinel_w :
    (flush (fun _ => []) (fun _ => false) 2 ⟨0, 0, [some ⟨0, []⟩]⟩).1.queue =
        [some ⟨0, []⟩] ++ [none] ∧
      none ∈ (flush (fun _ => []) (fun _ => false) 2
        ⟨0, 0, [some ⟨0, []⟩]⟩).1.queue ∧
      (fun _ : Option LogRecord => ([] : List Char)) none ∈
        ((flush (fun _ => []) (fun _ => false) 2
          ⟨0, 0, [some ⟨0, []⟩]⟩).1.queue.map
            (fun _ : Option LogRecord => ([] : List Char))) ∧
      ¬(∀ x ∈ (flush (fun _ => []) (fun _ => false) 2
          ⟨0, 0, [some ⟨0, []⟩]⟩).1.queue, x.isSome) :=
  flush_failure_enqueues_sentinel (fun _ => []) (fun _ => false) 2
    ⟨0, 0, [some ⟨0, []⟩]⟩ (by simp) rfl

/-- C2 counterexample: a comment whose classifier call fails, followed by
a perfectly good comment, makes the supervisor log at error level and
terminate; the subsequent comment is never processed, contradicting the
claim that the loop continues with the next comment. -/
theorem classifier_failure_terminates_cex :
    runSupervisor (fun _ => 0)
        [StepEvent.comment true, StepEvent.comment false] 0 =
      ([Action.fatalLog], true) ∧
    Action.processed ∉ (runSupervisor (fun _ => 0)
      [StepEvent.comment true, StepEvent.comment false] 0).1 := by
  decide

/-- C2 amended: a classifier failure while processing one comment is
caught by the generic exception handler, logged at error level, and
re-raised, terminating the supervisor loop; comments after the failing
one are never processed (only feed server errors are recovered). -/
theorem classifier_failure_fatal (rand : ℕ → ℕ) (k : ℕ)
    (pre rest : List StepEvent)
    (hpre : ∀ e ∈ pre, e = StepEvent.comment false) :
    runSupervisor rand (pre ++ StepEvent.comment true :: rest) k =
      (pre.map (fun _ => Action.processed) ++ [Action.fatalLog], true) := by
  induction pre with
  | nil => simp [runSupervisor]
  | cons e pre2 ih =>
    have he : e = StepEvent.comment false :=
      hpre e (List.mem_cons_self _ _)
    subst he
    have hrest : ∀ e ∈ pre2, e = StepEvent.comment false :=
      fun e he => hpre e (List.mem_cons_of_mem _ he)
    simp [runSupervisor, ih hrest]

/-- Witness for C2's amended theorem with one good comment before the
failing one. -/
theorem classifier_failure_fatal_w :
    runSupervisor (fun _ => 0)
        ([StepEvent.comment false] ++
          StepEvent.comment true :: [StepEvent.comment false]) 0 =
      ([StepEvent.comment false].map (fun _ => Action.processed) ++
        [Action.fatalLog], true) :=
  classifier_failure_fatal (fun _ => 0) 0 [StepEvent.comment false]
    [StepEvent.comment false] (by decide)

/-- C3 counterexample: with an oracle value of 10, `randint 25 35`
returns 35, so the supervisor's backoff sleep after a transient feed
error lasts 35 seconds, which lies outside the half-open interval
`[25, 35)` the claim asserts. -/
theorem backoff_upper_bound_cex :
    (runSupervisor (fun _ => 10) [StepEvent.feedServerError] 0).1 =
      [Action.warnBackoff (randint 25 35 10)] ∧
    randint 25 35 10 = 35 ∧ ¬(randint 25 35 10 < 35) := by
  decide

/-- C3 amended: after a transient feed server error the supervisor logs a
warning and sleeps a duration in the closed interval `[25, 35]` seconds
(`randint` is inclusive at both ends), then resumes consuming the
remaining events; it never terminates on the transient error itself (the
termination flag is whatever the rest of the stream produces). -/
theorem server_error_backoff_resumes (rand : ℕ → ℕ) (k : ℕ)
    (rest : List StepEvent) :
    25 ≤ randint 25 35 (rand k) ∧ randint 25 35 (rand k) ≤ 35 ∧
      runSupervisor rand (StepEvent.feedServerError :: rest) k =
        (Action.warnBackoff (randint 25 35 (rand k)) ::
            (runSupervisor rand rest (k + 1)).1,
          (runSupervisor rand rest (k + 1)).2) := by
  refine ⟨Nat.le_add_right _ _, ?_, by simp [runSupervisor]⟩
  have h : rand k % 11 ≤ 10 :=
    Nat.lt_succ_iff.mp (Nat.mod_lt _ (by norm_num))
  simp only [randint]
  omega

/-- C8: an attribute issues a moderator report exactly when its score is
greater than or equal to its threshold, one report per triggering
attribute, in order, carrying attribute, score and threshold; at the
boundary a score of 0.91 against threshold 0.9 triggers, 0.89 does not,
and two triggering attributes on one comment yield two reports. -/
theorem escalate_reports_per_trigger (threshold : List Char → ℚ)
    (results : List (List Char × ℚ)) :
    ((escalate threshold results).reports =
      (results.filter (fun p => threshold p.1 ≤ p.2)).map
        (fun p => (p.1, p.2, threshold p.1))) ∧
    (escalate (fun _ => 9 / 10) [(['T'], 91 / 100)]).reports.length = 1 ∧
    (escalate (fun _ => 9 / 10) [(['T'], 89 / 100)]).reports.length = 0 ∧
    (escalate (fun _ => 9 / 10)
      [(['T'], 91 / 100), (['I'], 95 / 100)]).reports.length = 2 := by
  refine ⟨?_, ?_, ?_, ?_⟩
  · induction results with
    | nil => simp [escalate]
    | cons p rest ih =>
      obtain ⟨attr, score⟩ := p
      by_cases h : threshold attr ≤ score
      · simp [escalate, List.filter_cons, h, ih]
      · simp [escalate, List.filter_cons, h, ih]
  · norm_num [escalate]
  · norm_num [escalate]
  · norm_num [escalate]

end RedditPerspective
